import Mathlib

/-!
Shallow embedding of the schedule store, calendar resolver and departure
query engine of `src/gtfs_parser.py` (bus-arrival-notifier), together with
proofs of the specification claims about them.

Python dictionaries are modelled as association lists in insertion order
(first binding wins on lookup, as dict keys are unique), Python strings as
`String`, `timedelta` values as their exact total seconds (`Int`), and
`None`-able values as `Option`.
-/

/-- Lookup in an association list: the value bound to the first occurrence
of the key.  Models Python `dict.get` / `dict[...]` access. -/
def lookup {α : Type} : List (String × α) → String → Option α
  | [], _ => none
  | (k, v) :: t, key => if k = key then some v else lookup t key

/-- Lexicographic comparison of two character lists by code point.
Models Python `str` comparison (`<`), which compares code points
left to right and makes a proper prefix smaller. -/
def lexLtCh : List Char → List Char → Bool
  | [], [] => false
  | [], _ :: _ => true
  | _ :: _, [] => false
  | a :: as, b :: bs =>
    if a.toNat < b.toNat then true
    else if b.toNat < a.toNat then false
    else lexLtCh as bs

/-- Python string `<` on `String`. -/
def pyStrLt (a b : String) : Bool := lexLtCh a.data b.data

/-- The relation "not smaller" under Python string comparison; sorting by
it in a stable sort models Python `list.sort(reverse=True)` on strings. -/
def pyStrGe (a b : String) : Prop := pyStrLt a b = false

instance : DecidableRel pyStrGe :=
  fun a b => inferInstanceAs (Decidable (pyStrLt a b = false))

/-- Digit test on a character (code points 48–57), as used by the
`%Y%m%d` date fields accepted by `datetime.strptime`. -/
def isDigitCh (c : Char) : Bool := 48 ≤ c.toNat && c.toNat ≤ 57

/-- Numeric value denoted by a list of decimal digit characters
(most significant first). -/
def digitsVal : List Char → Nat
  | [] => 0
  | c :: cs => (c.toNat - 48) * 10 ^ cs.length + digitsVal cs

/-- Calendar date as year/month/day numbers. -/
structure YMD where
  year : Nat
  month : Nat
  day : Nat
deriving DecidableEq, Repr

/-- Leap-year test of the proleptic Gregorian calendar, as in Python's
`datetime` module. -/
def isLeap (y : Nat) : Bool := (y % 4 == 0 && y % 100 != 0) || y % 400 == 0

/-- Length of a month, Gregorian. -/
def daysInMonth (leap : Bool) : Nat → Nat
  | 1 => 31
  | 2 => if leap then 29 else 28
  | 3 => 31
  | 4 => 30
  | 5 => 31
  | 6 => 30
  | 7 => 31
  | 8 => 31
  | 9 => 30
  | 10 => 31
  | 11 => 30
  | 12 => 31
  | _ => 0

/-- Days in the months strictly before month `m` of a year. -/
def daysBeforeMonth (leap : Bool) : Nat → Nat
  | 0 => 0
  | 1 => 0
  | Nat.succ k => daysBeforeMonth leap k + daysInMonth leap k

/-- Proleptic-Gregorian ordinal of a date, with 0001-01-01 as day 1.
Models Python `datetime.toordinal`. -/
def toOrdinal (x : YMD) : Nat :=
  365 * (x.year - 1) + (x.year - 1) / 4 - (x.year - 1) / 100 + (x.year - 1) / 400
    + daysBeforeMonth (isLeap x.year) x.month + x.day

/-- Weekday of a date, Monday = 0 … Sunday = 6.  Models Python
`datetime.weekday()` (0001-01-01 is a Monday). -/
def weekday (x : YMD) : Nat := (toOrdinal x + 6) % 7

/-- Parse of a `YYYYMMDD` date string: exactly eight decimal digits,
month 1–12, day valid for the (leap-aware) month, year at least 1.
Models `datetime.strptime(s, "%Y%m%d")` on the eight-digit date keys
of GTFS `calendar_dates` data; any other string is rejected (`None`
standing for the raised `ValueError`). -/
def parseDate (s : String) : Option YMD :=
  if s.data.length = 8 ∧ s.data.all isDigitCh then
    let y := digitsVal (s.data.take 4)
    let m := digitsVal ((s.data.drop 4).take 2)
    let d := digitsVal (s.data.drop 6)
    if 1 ≤ y ∧ 1 ≤ m ∧ m ≤ 12 ∧ 1 ≤ d ∧ d ≤ daysInMonth (isLeap y) m then
      some ⟨y, m, d⟩
    else none
  else none

/-- Numeric reading of a date, `y*10000 + m*100 + d`: the number denoted by
its `YYYYMMDD` digits.  For valid dates its order is the chronological
order (year, then month, then day). -/
def dateNum (x : YMD) : Nat := x.year * 10000 + x.month * 100 + x.day

/-- The mutable module-global `_fallback_info` of `gtfs_parser.py`. -/
structure FallbackInfo where
  is_fallback : Bool
  original_date : Option String
  fallback_date : Option String
deriving DecidableEq, Repr

/-- Initial value of `_fallback_info`. -/
def initFallbackInfo : FallbackInfo := ⟨false, none, none⟩

/-- Keys of the calendar whose date parses and has the same weekday as the
target date: the `same_weekday_dates` list built in `_find_fallback_date`
(in calendar iteration order, keys failing `strptime` skipped). -/
def sameWeekdayKeys (calendar_dates : List (String × List String)) (td : YMD) :
    List String :=
  (calendar_dates.map Prod.fst).filter fun k =>
    match parseDate k with
    | some kd => weekday kd == weekday td
    | none => false

/-- Embedding of `_find_fallback_date`: returns the effective date (if any)
together with the new `_fallback_info` state.  If the target date is a
calendar key it is returned as is; otherwise the same-weekday keys are
sorted descending (Python `sort(reverse=True)`) and the first — the
greatest under string comparison — is returned.  On the failure paths
(`ValueError` on the target date, or no same-weekday key) the recorded
state is left untouched, as in the source. -/
def find_fallback_date (target_date : String)
    (calendar_dates : List (String × List String)) (info : FallbackInfo) :
    Option String × FallbackInfo :=
  if (lookup calendar_dates target_date).isSome then
    (some target_date, ⟨false, some target_date, none⟩)
  else
    match parseDate target_date with
    | none => (none, info)
    | some td =>
      match List.insertionSort pyStrGe (sameWeekdayKeys calendar_dates td) with
      | [] => (none, info)
      | fb :: _ => (some fb, ⟨true, some target_date, some fb⟩)

/-- Result shape of `get_fallback_info` (the input dictionary plus the
`fallback_date_formatted` entry). -/
structure FallbackInfoOut where
  is_fallback : Bool
  original_date : Option String
  fallback_date : Option String
  fallback_date_formatted : Option String
deriving DecidableEq, Repr

/-- Month/day display, Python `f"{dt.month}月{dt.day}日"`. -/
def formatMonthDay (x : YMD) : String :=
  toString x.month ++ "月" ++ toString x.day ++ "日"

/-- Embedding of `get_fallback_info`.  The formatted field is set only when
`is_fallback` is set and the recorded fallback date is truthy (neither
`None` nor the empty string); a date that fails to parse yields `None`
for the formatted field (the caught `ValueError`).  A total function:
the operation never raises. -/
def get_fallback_info (info : FallbackInfo) : FallbackInfoOut :=
  { is_fallback := info.is_fallback
    original_date := info.original_date
    fallback_date := info.fallback_date
    fallback_date_formatted :=
      if info.is_fallback then
        match info.fallback_date with
        | some fd =>
          if fd = "" then none
          else
            match parseDate fd with
            | some x => some (formatMonthDay x)
            | none => none
        | none => none
      else none }

/-- One retained stop-time row, as built in `_load_all_data`
(`stop_headsign` defaulted to the empty string by `row.get`). -/
structure StopTime where
  trip_id : String
  departure_time : String
  stop_id : String
  headsign : String
deriving DecidableEq, Repr

/-- The module-global `_cache` of `gtfs_parser.py`: the three tables start
out as `None` and the `loaded` flag as `False`. -/
structure Cache where
  calendar_dates : Option (List (String × List String))
  trip_services : Option (List (String × String))
  stop_times : Option (List StopTime)
  loaded : Bool
deriving DecidableEq, Repr

/-- Initial `_cache` value. -/
def initCache : Cache := ⟨none, none, none, false⟩

/-- Error raised by a failed load: a missing/unreadable source file
(Python `FileNotFoundError`, carrying the path) or a missing required
column (Python `KeyError` raised by `row[...]`, carrying the column
name).  `_load_all_data` defines no error class of its own. -/
inductive PyError where
  | fileNotFound : String → PyError
  | keyError : String → PyError
deriving DecidableEq, Repr

/-- A `calendar_dates.txt` row as seen through `csv.DictReader`: a
column missing from the header makes the field `none`. -/
structure CalSrcRow where
  service_id : Option String
  date : Option String
  exception_type : Option String
deriving DecidableEq, Repr

/-- A `trips.txt` row. -/
structure TripSrcRow where
  trip_id : Option String
  service_id : Option String
deriving DecidableEq, Repr

/-- A `stop_times.txt` row. -/
structure StopTimeSrcRow where
  trip_id : Option String
  stop_id : Option String
  departure_time : Option String
  stop_headsign : Option String
deriving DecidableEq, Repr

/-- Append a service id to the list of a date key, creating the key at the
end on first sight: Python `service_dates[date].append(service_id)` after
`service_dates[date] = []` when absent. -/
def calendarAppend (acc : List (String × List String)) (date service_id : String) :
    List (String × List String) :=
  match acc with
  | [] => [(date, [service_id])]
  | (d, l) :: t =>
    if d = date then (d, l ++ [service_id]) :: t
    else (d, l) :: calendarAppend t date service_id

/-- Dictionary assignment `d[k] = v`: replace the binding in place, or
append a new one. -/
def dictInsert (acc : List (String × String)) (k v : String) :
    List (String × String) :=
  match acc with
  | [] => [(k, v)]
  | (k', v') :: t => if k' = k then (k, v) :: t else (k', v') :: dictInsert t k v

/-- Scan of the `calendar_dates.txt` rows: keep rows whose
`exception_type` (defaulted to `"1"`) is `"1"`; `row["service_id"]` and
`row["date"]` raise `KeyError` when the column is missing. -/
def buildCalendar : List CalSrcRow → List (String × List String) →
    Except PyError (List (String × List String))
  | [], acc => .ok acc
  | r :: rs, acc =>
    match r.service_id with
    | none => .error (.keyError "service_id")
    | some sid =>
      match r.date with
      | none => .error (.keyError "date")
      | some date =>
        if r.exception_type.getD "1" = "1" then
          buildCalendar rs (calendarAppend acc date sid)
        else buildCalendar rs acc

/-- Scan of the `trips.txt` rows: `trip_services[row["trip_id"]] =
row["service_id"]` (Python evaluates the right-hand side first, so a
missing `service_id` column is the error reported). -/
def buildTrips : List TripSrcRow → List (String × String) →
    Except PyError (List (String × String))
  | [], acc => .ok acc
  | r :: rs, acc =>
    match r.service_id with
    | none => .error (.keyError "service_id")
    | some sid =>
      match r.trip_id with
      | none => .error (.keyError "trip_id")
      | some tid => buildTrips rs (dictInsert acc tid sid)

/-- Scan of the `stop_times.txt` rows, keeping only rows whose `stop_id`
is a configured stop; the other columns are only read (and can only
raise) for retained rows, `stop_headsign` through `row.get` with default
`""`. -/
def buildStopTimes (all_stop_ids : List String) :
    List StopTimeSrcRow → Except PyError (List StopTime)
  | [] => .ok []
  | r :: rs =>
    match r.stop_id with
    | none => .error (.keyError "stop_id")
    | some sid =>
      if all_stop_ids.contains sid then
        match r.trip_id with
        | none => .error (.keyError "trip_id")
        | some tid =>
          match r.departure_time with
          | none => .error (.keyError "departure_time")
          | some dt =>
            match buildStopTimes all_stop_ids rs with
            | .error e => .error e
            | .ok rest =>
              .ok (⟨tid, dt, sid, r.stop_headsign.getD ""⟩ :: rest)
      else buildStopTimes all_stop_ids rs

/-- Embedding of `_load_all_data`.  Each source table is `none` when its
file cannot be opened.  The function mirrors the source's in-place
mutation of `_cache`: each table is stored into the cache as soon as it
is built, an error propagates immediately (there is no handler), and
`loaded` is set only after all three tables are in.  The returned pair is
(outcome, cache state after the call). -/
def load_all_data (c : Cache) (calSrc : Option (List CalSrcRow))
    (tripsSrc : Option (List TripSrcRow)) (stSrc : Option (List StopTimeSrcRow))
    (all_stop_ids : List String) : Except PyError Unit × Cache :=
  if c.loaded then (.ok (), c)
  else
    match calSrc with
    | none => (.error (.fileNotFound "calendar_dates.txt"), c)
    | some rows =>
      match buildCalendar rows [] with
      | .error e => (.error e, c)
      | .ok cal =>
        let c1 : Cache := { c with calendar_dates := some cal }
        match tripsSrc with
        | none => (.error (.fileNotFound "trips.txt"), c1)
        | some trows =>
          match buildTrips trows [] with
          | .error e => (.error e, c1)
          | .ok trips =>
            let c2 : Cache := { c1 with trip_services := some trips }
            match stSrc with
            | none => (.error (.fileNotFound "stop_times.txt"), c2)
            | some srows =>
              match buildStopTimes all_stop_ids srows with
              | .error e => (.error e, c2)
              | .ok sts => (.ok (), { c2 with stop_times := some sts, loaded := true })

/-- Split a character list at every colon, Python `str.split(":")`:
`""` gives one empty part, a colon separates (possibly empty) parts. -/
def splitOnColon : List Char → List (List Char)
  | [] => [[]]
  | c :: cs =>
    if c = ':' then [] :: splitOnColon cs
    else
      match splitOnColon cs with
      | [] => [[c]]
      | t :: ts => (c :: t) :: ts

/-- Integer value of a field, Python `int(str)` on an optional sign
followed by decimal digits; anything else raises (`none`). -/
def pyInt : List Char → Option Int
  | '-' :: rest =>
    if rest ≠ [] ∧ rest.all isDigitCh then some (-(digitsVal rest : Int)) else none
  | '+' :: rest =>
    if rest ≠ [] ∧ rest.all isDigitCh then some ((digitsVal rest : Int)) else none
  | cs =>
    if cs ≠ [] ∧ cs.all isDigitCh then some ((digitsVal cs : Int)) else none

/-- Embedding of `parse_time`: split on `":"`, read hours and minutes (and
seconds when a third part exists, else 0), and return the value of the
resulting `timedelta` in seconds.  Hours may exceed 23 (GTFS past-midnight
times); any failure inside the `try` block — fewer than two parts or a
non-integer part — yields `None`. -/
def parse_time (time_str : String) : Option Int :=
  match splitOnColon time_str.data with
  | p0 :: p1 :: rest =>
    match pyInt p0, pyInt p1, (match rest with | [] => some (0 : Int) | p2 :: _ => pyInt p2) with
    | some h, some m, some s => some (h * 3600 + m * 60 + s)
    | _, _, _ => none
  | _ => none

/-- Minutes until departure: `int(diff.total_seconds() / 60)`, a
truncating division of the (at the call site non-negative) difference
of the departure offset and the reference offset, both in seconds. -/
def minutesUntil (dep current : Int) : Int := Int.tdiv (dep - current) 60

/-- Two-digit zero-padded decimal rendering, Python `f"{n:02d}"`, for the
values `0 ≤ n < 100` produced by the `% 24` and `% 60` reductions. -/
def fmt02 (n : Int) : String :=
  String.mk [Char.ofNat (48 + n.toNat / 10), Char.ofNat (48 + n.toNat % 10)]

/-- Display clock time of a departure offset in seconds, wrapped modulo 24
hours: `total_minutes = int(dep/60)`, `hours = (total_minutes // 60) % 24`,
`mins = total_minutes % 60`, rendered `"HH:MM"` (Python `//` is floor
division and `%` a non-negative remainder for a positive modulus). -/
def formatHHMM (dep : Int) : String :=
  let total_minutes := Int.tdiv dep 60
  let hours := Int.emod (Int.fdiv total_minutes 60) 24
  let mins := Int.emod total_minutes 60
  fmt02 hours ++ ":" ++ fmt02 mins

/-- A configured bus stop: display name and the set of raw stop ids. -/
structure BusStopConfig where
  name : String
  stop_ids : List String
deriving DecidableEq, Repr

/-- The slice of the configuration the query engine reads: the stop groups
and the destination substring patterns. -/
structure Config where
  bus_stops : List (String × BusStopConfig)
  destinations : List (String × List String)
deriving DecidableEq, Repr

/-- The loaded schedule store as the queries read it from `_cache` after
`_load_all_data` has run: the three tables. -/
structure Store where
  calendar_dates : List (String × List String)
  trip_services : List (String × String)
  stop_times : List StopTime
deriving DecidableEq, Repr

/-- The reference timestamp `now`: its calendar date as formatted by
`strftime("%Y%m%d")` and its clock fields. -/
structure Now where
  date : String
  hour : Nat
  minute : Nat
  second : Nat
deriving DecidableEq, Repr

/-- Same-day offset of the reference time in seconds:
`timedelta(hours=now.hour, minutes=now.minute, seconds=now.second)`. -/
def currentSeconds (n : Now) : Int :=
  (n.hour : Int) * 3600 + (n.minute : Int) * 60 + (n.second : Int)

/-- Destination check of a stop-time row: Python
`any(pattern in headsign for pattern in dest_patterns)` — case-sensitive
substring containment. -/
def headsignMatches (dest_patterns : List String) (headsign : String) : Bool :=
  dest_patterns.any fun p => decide (p.data <:+: headsign.data)

/-- Service check: Python `service_id not in today_services` negated,
where `service_id = trip_services.get(trip_id)` may be `None` (and `None`
is never an element of a set of strings). -/
def serviceActive (service_id : Option String) (today_services : List String) : Bool :=
  match service_id with
  | some s => today_services.contains s
  | none => false

/-- Candidate emitted for one stop-time row by the loop of
`get_next_buses`, or `none` when a `continue` skips the row: the row must
be at a stop of the group, its headsign must contain a destination
pattern, its trip's service must run today, its departure time must parse,
and the departure must not precede the reference time. -/
def rowCandidate (trip_services : List (String × String))
    (target_stop_ids : List String) (dest_patterns : List String)
    (today_services : List String) (current : Int) (st : StopTime) : Option Int :=
  if target_stop_ids.contains st.stop_id then
    if headsignMatches dest_patterns st.headsign then
      if serviceActive (lookup trip_services st.trip_id) today_services then
        match parse_time st.departure_time with
        | some dep =>
          if dep < current then none else some (minutesUntil dep current)
        | none => none
      else none
    else none
  else none

/-- The `"minutes"`/`"time"` record of `get_next_buses_with_times`. -/
structure Departure where
  minutes : Int
  time : String
deriving DecidableEq, Repr

/-- Candidate emitted for one stop-time row by the loop of
`get_next_buses_with_times`: the same guards as `rowCandidate`, with the
display clock time attached. -/
def rowCandidateTimed (trip_services : List (String × String))
    (target_stop_ids : List String) (dest_patterns : List String)
    (today_services : List String) (current : Int) (st : StopTime) :
    Option Departure :=
  if target_stop_ids.contains st.stop_id then
    if headsignMatches dest_patterns st.headsign then
      if serviceActive (lookup trip_services st.trip_id) today_services then
        match parse_time st.departure_time with
        | some dep =>
          if dep < current then none
          else some ⟨minutesUntil dep current, formatHHMM dep⟩
        | none => none
      else none
    else none
  else none

/-- Ascending order on candidate minute counts (`candidates.sort()`). -/
def intLE (a b : Int) : Prop := a ≤ b

instance : DecidableRel intLE := fun a b => inferInstanceAs (Decidable (a ≤ b))

/-- Ascending order on departures by their minutes field
(`candidates.sort(key=lambda x: x["minutes"])`). -/
def depLE (a b : Departure) : Prop := a.minutes ≤ b.minutes

instance : DecidableRel depLE := fun a b => inferInstanceAs (Decidable (a.minutes ≤ b.minutes))

/-- Final stage of `get_next_buses_with_times`: stable sort ascending by
minutes, then truncate to the first `limit` entries
(`candidates.sort(key=...)` — Python's sort is stable — then `[:limit]`). -/
def queryPipeline (candidates : List Departure) (limit : Nat) : List Departure :=
  (List.insertionSort depLE candidates).take limit

/-- Embedding of `get_next_buses` over an explicit configuration, loaded
store and fallback state (the Python function reads these from module
globals; the returned list does not depend on the fallback state).  An
unknown stop key, an unknown or empty destination key, or a failed
calendar resolution short-circuits to the empty list. -/
def get_next_buses (cfg : Config) (store : Store) (stop_location destination : String)
    (now : Now) (limit : Nat) : List Int :=
  let today := now.date
  let current := currentSeconds now
  match lookup cfg.bus_stops stop_location with
  | none => []
  | some stop_config =>
    let dest_patterns := (lookup cfg.destinations destination).getD []
    if dest_patterns.isEmpty then []
    else
      match (find_fallback_date today store.calendar_dates initFallbackInfo).1 with
      | none => []
      | some effective_date =>
        let today_services := (lookup store.calendar_dates effective_date).getD []
        let candidates := store.stop_times.filterMap
          (rowCandidate store.trip_services stop_config.stop_ids dest_patterns
            today_services current)
        (List.insertionSort intLE candidates).take limit

/-- Embedding of `get_next_buses_with_times`: the same scan with the
display clock time attached to each candidate. -/
def get_next_buses_with_times (cfg : Config) (store : Store)
    (stop_location destination : String) (now : Now) (limit : Nat) : List Departure :=
  let today := now.date
  let current := currentSeconds now
  match lookup cfg.bus_stops stop_location with
  | none => []
  | some stop_config =>
    let dest_patterns := (lookup cfg.destinations destination).getD []
    if dest_patterns.isEmpty then []
    else
      match (find_fallback_date today store.calendar_dates initFallbackInfo).1 with
      | none => []
      | some effective_date =>
        let today_services := (lookup store.calendar_dates effective_date).getD []
        let candidates := store.stop_times.filterMap
          (rowCandidateTimed store.trip_services stop_config.stop_ids dest_patterns
            today_services current)
        queryPipeline candidates limit

/-- The `_fallback_info` states reachable from the initial state through
calendar resolutions (`_find_fallback_date` is the only writer of the
global in the module). -/
inductive ReachableInfo : FallbackInfo → Prop where
  | init : ReachableInfo initFallbackInfo
  | step (t : String) (cal : List (String × List String)) (i : FallbackInfo) :
      ReachableInfo i → ReachableInfo (find_fallback_date t cal i).2

open List

/-! Properties of the Python string order. -/

theorem lexLt_irrefl : ∀ as : List Char, lexLtCh as as = false
  | [] => rfl
  | a :: as => by simp [lexLtCh, lexLt_irrefl as]

theorem lexLt_asymm : ∀ as bs : List Char, lexLtCh as bs = true → lexLtCh bs as = false
  | [], [] => by simp [lexLtCh]
  | [], _ :: _ => by simp [lexLtCh]
  | _ :: _, [] => by simp [lexLtCh]
  | a :: as, b :: bs => by
    intro h
    by_cases h1 : a.toNat < b.toNat
    · have h2 : ¬ b.toNat < a.toNat := by omega
      simp [lexLtCh, h1, h2]
    · by_cases h2 : b.toNat < a.toNat
      · simp [lexLtCh, h1, h2] at h
      · have ht := lexLt_asymm as bs (by simpa [lexLtCh, h1, h2] using h)
        simp [lexLtCh, h1, h2, ht]

theorem lexLt_notLt_trans : ∀ as bs cs : List Char,
    lexLtCh as bs = false → lexLtCh bs cs = false → lexLtCh as cs = false
  | [], [], _ => fun _ h2 => h2
  | [], _ :: _, _ => by simp [lexLtCh]
  | _ :: _, _, [] => by intro _ _; rfl
  | a :: as, [], c :: cs => by simp [lexLtCh]
  | a :: as, b :: bs, c :: cs => by
    intro h1 h2
    by_cases hab : a.toNat < b.toNat
    · simp [lexLtCh, hab] at h1
    · by_cases hbc : b.toNat < c.toNat
      · simp [lexLtCh, hbc] at h2
      · by_cases hba : b.toNat < a.toNat
        · have hca : c.toNat < a.toNat := by omega
          have hac : ¬ a.toNat < c.toNat := by omega
          simp [lexLtCh, hac, hca]
        · -- heads a and b coincide in code point
          by_cases hcb : c.toNat < b.toNat
          · have hca : c.toNat < a.toNat := by omega
            have hac : ¬ a.toNat < c.toNat := by omega
            simp [lexLtCh, hac, hca]
          · have hac : ¬ a.toNat < c.toNat := by omega
            have hca : ¬ c.toNat < a.toNat := by omega
            have t1 : lexLtCh as bs = false := by simpa [lexLtCh, hab, hba] using h1
            have t2 : lexLtCh bs cs = false := by simpa [lexLtCh, hbc, hcb] using h2
            simpa [lexLtCh, hac, hca] using lexLt_notLt_trans as bs cs t1 t2

theorem pyStrGe_refl (a : String) : pyStrGe a a := lexLt_irrefl a.data

theorem pyStrGe_total (a b : String) : pyStrGe a b ∨ pyStrGe b a := by
  cases hab : pyStrLt a b with
  | false => exact Or.inl hab
  | true => exact Or.inr (lexLt_asymm a.data b.data hab)

theorem pyStrGe_trans (a b c : String) : pyStrGe a b → pyStrGe b c → pyStrGe a c :=
  lexLt_notLt_trans a.data b.data c.data

/-! Digit strings denote numbers; the lexicographic order on equal-length
digit strings is the numeric order. -/

theorem isDigitCh_bounds {c : Char} (h : isDigitCh c = true) :
    48 ≤ c.toNat ∧ c.toNat ≤ 57 := by
  simpa [isDigitCh, Nat.le_div_iff_mul_le] using h

theorem digitsVal_lt : ∀ cs : List Char, cs.all isDigitCh = true →
    digitsVal cs < 10 ^ cs.length
  | [] => by intro _; simp [digitsVal]
  | c :: cs => by
    intro h
    rw [List.all_cons, Bool.and_eq_true] at h
    have hc := isDigitCh_bounds h.1
    have ht := digitsVal_lt cs h.2
    have h9 : c.toNat - 48 ≤ 9 := by omega
    have hmul : (c.toNat - 48) * 10 ^ cs.length ≤ 9 * 10 ^ cs.length :=
      Nat.mul_le_mul_right _ h9
    calc digitsVal (c :: cs) = (c.toNat - 48) * 10 ^ cs.length + digitsVal cs := rfl
      _ ≤ 9 * 10 ^ cs.length + digitsVal cs := by omega
      _ < 9 * 10 ^ cs.length + 10 ^ cs.length := by omega
      _ = 10 ^ (cs.length + 1) := by ring
      _ = 10 ^ (c :: cs).length := by rw [List.length_cons]

theorem digitsVal_head_lt {a b : Char} {as bs : List Char}
    (hlen : as.length = bs.length) (ha : isDigitCh a = true)
    (hA : as.all isDigitCh = true) (h : a.toNat < b.toNat) :
    digitsVal (a :: as) < digitsVal (b :: bs) := by
  have hab := isDigitCh_bounds ha
  have hAlt := digitsVal_lt as hA
  have hstep : a.toNat - 48 + 1 ≤ b.toNat - 48 := by omega
  have hmul : (a.toNat - 48 + 1) * 10 ^ as.length ≤ (b.toNat - 48) * 10 ^ as.length :=
    Nat.mul_le_mul_right _ hstep
  rw [Nat.add_mul, Nat.one_mul] at hmul
  calc digitsVal (a :: as) = (a.toNat - 48) * 10 ^ as.length + digitsVal as := rfl
    _ < (a.toNat - 48) * 10 ^ as.length + 10 ^ as.length := by omega
    _ ≤ (b.toNat - 48) * 10 ^ as.length := hmul
    _ ≤ (b.toNat - 48) * 10 ^ bs.length + digitsVal bs := by rw [hlen]; omega
    _ = digitsVal (b :: bs) := rfl

theorem lexLt_iff_digitsVal : ∀ as bs : List Char, as.length = bs.length →
    as.all isDigitCh = true → bs.all isDigitCh = true →
    (lexLtCh as bs = true ↔ digitsVal as < digitsVal bs)
  | [], [] => by intro _ _ _; simp [lexLtCh]
  | [], _ :: _ => by intro h; simp at h
  | _ :: _, [] => by intro h; simp at h
  | a :: as, b :: bs => by
    intro hlen hA hB
    rw [List.length_cons, List.length_cons, Nat.add_right_cancel_iff] at hlen
    rw [List.all_cons, Bool.and_eq_true] at hA hB
    by_cases h1 : a.toNat < b.toNat
    · simp only [lexLtCh, h1, if_true]
      exact iff_of_true trivial (digitsVal_head_lt hlen hA.1 hA.2 h1)
    · by_cases h2 : b.toNat < a.toNat
      · simp only [lexLtCh, h1, if_false, h2, if_true]
        have := digitsVal_head_lt hlen.symm hB.1 hB.2 h2
        exact iff_of_false (by simp) (by omega)
      · have heq : a.toNat = b.toNat := by omega
        have htail := lexLt_iff_digitsVal as bs hlen hA.2 hB.2
        simp only [lexLtCh, h1, h2, if_false]
        rw [htail]
        show digitsVal as < digitsVal bs ↔
          (a.toNat - 48) * 10 ^ as.length + digitsVal as <
            (b.toNat - 48) * 10 ^ bs.length + digitsVal bs
        rw [heq, hlen]
        omega

theorem digitsVal_append : ∀ u v : List Char,
    digitsVal (u ++ v) = digitsVal u * 10 ^ v.length + digitsVal v
  | [], v => by simp [digitsVal]
  | c :: u, v => by
    show (c.toNat - 48) * 10 ^ (u ++ v).length + digitsVal (u ++ v) = _
    rw [digitsVal_append u v, List.length_append]
    show _ = ((c.toNat - 48) * 10 ^ u.length + digitsVal u) * 10 ^ v.length + digitsVal v
    rw [pow_add]
    ring

/-- What a successful `strptime` parse guarantees: eight digit characters
whose denoted number is the `dateNum` of the parsed date, with the field
bounds checked by the `datetime` constructor. -/
theorem parseDate_spec {s : String} {x : YMD} (h : parseDate s = some x) :
    s.data.length = 8 ∧ s.data.all isDigitCh = true ∧ digitsVal s.data = dateNum x ∧
      1 ≤ x.year ∧ 1 ≤ x.month ∧ x.month ≤ 12 ∧ 1 ≤ x.day ∧
      x.day ≤ daysInMonth (isLeap x.year) x.month := by
  unfold parseDate at h
  split at h
  case isFalse => exact absurd h (by simp)
  case isTrue h8 =>
    dsimp only at h
    split at h
    case isFalse => exact absurd h (by simp)
    case isTrue hb =>
      obtain ⟨hx⟩ := h
      refine ⟨h8.1, h8.2, ?_, ?_, ?_, ?_, ?_, ?_⟩
      · have hsplit1 : s.data = s.data.take 4 ++ s.data.drop 4 :=
          (List.take_append_drop 4 s.data).symm
        have hsplit2 : s.data.drop 4 = (s.data.drop 4).take 2 ++ (s.data.drop 4).drop 2 :=
          (List.take_append_drop 2 (s.data.drop 4)).symm
        have hdd : (s.data.drop 4).drop 2 = s.data.drop 6 := by
          rw [List.drop_drop]
        have hlen4 : (s.data.drop 4).length = 4 := by
          rw [List.length_drop, h8.1]
        have hlen2 : ((s.data.drop 4).drop 2).length = 2 := by
          rw [List.length_drop, hlen4]
        conv_lhs => rw [hsplit1, hsplit2, hdd]
        rw [digitsVal_append, digitsVal_append, List.length_append]
        rw [show ((s.data.drop 4).take 2).length = 2 by
          rw [List.length_take, hlen4]; decide]
        rw [show (s.data.drop 6).length = 2 by rw [List.length_drop, h8.1]]
        simp only [dateNum]
        ring
      · exact hb.1
      · exact hb.2.1
      · exact hb.2.2.1
      · exact hb.2.2.2.1
      · exact hb.2.2.2.2

/-- On strings that parse as dates, Python string comparison agrees with
the numeric (hence chronological) comparison of the dates. -/
theorem pyStrLt_iff_dateNum {a b : String} {xa xb : YMD}
    (ha : parseDate a = some xa) (hb : parseDate b = some xb) :
    (pyStrLt a b = true ↔ dateNum xa < dateNum xb) := by
  obtain ⟨la, da, va, -⟩ := parseDate_spec ha
  obtain ⟨lb, db, vb, -⟩ := parseDate_spec hb
  have := lexLt_iff_digitsVal a.data b.data (by rw [la, lb]) da db
  rw [va, vb] at this
  exact this

/-! The head of the descending sort is string-greatest. -/

theorem sortDesc_head {l rest : List String} {fb : String}
    (h : List.insertionSort pyStrGe l = fb :: rest) :
    fb ∈ l ∧ ∀ k ∈ l, pyStrGe fb k := by
  haveI : IsTotal String pyStrGe := ⟨pyStrGe_total⟩
  haveI : IsTrans String pyStrGe := ⟨pyStrGe_trans⟩
  have hperm := List.perm_insertionSort pyStrGe l
  have hsort := List.sorted_insertionSort pyStrGe l
  rw [h] at hperm hsort
  refine ⟨hperm.subset (List.mem_cons_self fb rest), fun k hk => ?_⟩
  have hk2 : k ∈ fb :: rest := hperm.symm.subset hk
  rcases List.mem_cons.mp hk2 with hkfb | hkrest
  · exact hkfb ▸ pyStrGe_refl fb
  · exact List.rel_of_sorted_cons hsort k hkrest

/-! Case analysis of `_find_fallback_date`. -/

theorem ffd_found {cal : List (String × List String)} {t : String}
    (h : (lookup cal t).isSome = true) (i : FallbackInfo) :
    find_fallback_date t cal i = (some t, ⟨false, some t, none⟩) := by
  unfold find_fallback_date
  rw [if_pos h]

theorem ffd_badDate {cal : List (String × List String)} {t : String}
    (h : (lookup cal t).isSome = false) (hp : parseDate t = none) (i : FallbackInfo) :
    find_fallback_date t cal i = (none, i) := by
  unfold find_fallback_date
  rw [if_neg (by simp [h]), hp]

theorem ffd_noKeys {cal : List (String × List String)} {t : String} {td : YMD}
    (h : (lookup cal t).isSome = false) (hp : parseDate t = some td)
    (hk : sameWeekdayKeys cal td = []) (i : FallbackInfo) :
    find_fallback_date t cal i = (none, i) := by
  simp [find_fallback_date, h, hp, hk]

theorem ffd_fallback {cal : List (String × List String)} {t : String} {td : YMD}
    {fb : String} {rest : List String}
    (h : (lookup cal t).isSome = false) (hp : parseDate t = some td)
    (hs : List.insertionSort pyStrGe (sameWeekdayKeys cal td) = fb :: rest)
    (i : FallbackInfo) :
    find_fallback_date t cal i = (some fb, ⟨true, some t, some fb⟩) := by
  simp [find_fallback_date, h, hp, hs]

/-- Membership in the same-weekday key list. -/
theorem mem_sameWeekdayKeys {cal : List (String × List String)} {td : YMD} {k : String} :
    k ∈ sameWeekdayKeys cal td ↔
      k ∈ cal.map Prod.fst ∧ ∃ kd, parseDate k = some kd ∧ weekday kd = weekday td := by
  unfold sameWeekdayKeys
  rw [List.mem_filter]
  constructor
  · rintro ⟨hm, hf⟩
    refine ⟨hm, ?_⟩
    cases hk : parseDate k with
    | none => rw [hk] at hf; exact absurd hf (by simp)
    | some kd =>
      rw [hk] at hf
      exact ⟨kd, rfl, by simpa using hf⟩
  · rintro ⟨hm, kd, hk, hw⟩
    exact ⟨hm, by rw [hk]; simpa using hw⟩

/-! Characterisation of the per-row candidate emission. -/

theorem minutesUntil_eq_fdiv {dep current : Int} (h : current ≤ dep) :
    minutesUntil dep current = Int.fdiv (dep - current) 60 :=
  (Int.fdiv_eq_tdiv (by omega) (by decide)).symm

theorem minutesUntil_nonneg {dep current : Int} (h : current ≤ dep) :
    0 ≤ minutesUntil dep current :=
  Int.tdiv_nonneg (by omega) (by decide)

theorem headsignMatches_iff {pats : List String} {h : String} :
    headsignMatches pats h = true ↔ ∃ p ∈ pats, p.data <:+: h.data := by
  unfold headsignMatches
  rw [List.any_eq_true]
  constructor
  · rintro ⟨p, hp, hd⟩
    exact ⟨p, hp, of_decide_eq_true hd⟩
  · rintro ⟨p, hp, hd⟩
    exact ⟨p, hp, decide_eq_true hd⟩

theorem serviceActive_iff {sid : Option String} {svcs : List String} :
    serviceActive sid svcs = true ↔ ∃ s, sid = some s ∧ s ∈ svcs := by
  cases sid with
  | none => simp [serviceActive]
  | some s => simp [serviceActive, List.elem_iff]

theorem rowCandidate_some_iff {ts : List (String × String)}
    {ids pats svcs : List String} {cur : Int} {st : StopTime} {c : Int} :
    rowCandidate ts ids pats svcs cur st = some c ↔
      (st.stop_id ∈ ids ∧ (∃ p ∈ pats, p.data <:+: st.headsign.data) ∧
       (∃ sid, lookup ts st.trip_id = some sid ∧ sid ∈ svcs) ∧
       (∃ dep, parse_time st.departure_time = some dep ∧ cur ≤ dep ∧
         c = Int.fdiv (dep - cur) 60)) := by
  unfold rowCandidate
  by_cases h1 : ids.contains st.stop_id
  · rw [if_pos h1]
    by_cases h2 : headsignMatches pats st.headsign
    · rw [if_pos h2]
      by_cases h3 : serviceActive (lookup ts st.trip_id) svcs
      · rw [if_pos h3]
        cases hp : parse_time st.departure_time with
        | none =>
          show (none : Option Int) = some c ↔ _
          constructor
          · intro hc; exact absurd hc (by simp)
          · rintro ⟨-, -, -, dep, hdep, -⟩
            exact absurd hdep (by simp)
        | some dep =>
          show (if dep < cur then none else some (minutesUntil dep cur)) = some c ↔ _
          by_cases h4 : dep < cur
          · rw [if_pos h4]
            constructor
            · intro hc; exact absurd hc (by simp)
            · rintro ⟨-, -, -, dep2, hdep2, hle, -⟩
              injection hdep2 with hd
              omega
          · rw [if_neg h4]
            constructor
            · intro hc
              injection hc with hc
              refine ⟨List.elem_iff.mp h1, headsignMatches_iff.mp h2,
                serviceActive_iff.mp h3, dep, rfl, by omega, ?_⟩
              rw [← hc, minutesUntil_eq_fdiv (by omega)]
            · rintro ⟨-, -, -, dep2, hdep2, hle, hc⟩
              injection hdep2 with hd
              subst hd
              rw [hc, minutesUntil_eq_fdiv (by omega)]
      · rw [if_neg h3]
        simp only [iff_iff_implies_and_implies]
        constructor
        · intro hc; exact absurd hc (by simp)
        · rintro ⟨-, -, ⟨sid, hsid, hmem⟩, -⟩
          exact absurd (serviceActive_iff.mpr ⟨sid, hsid, hmem⟩) h3
    · rw [if_neg h2]
      simp only [iff_iff_implies_and_implies]
      constructor
      · intro hc; exact absurd hc (by simp)
      · rintro ⟨-, hpat, -⟩
        exact absurd (headsignMatches_iff.mpr hpat) h2
  · rw [if_neg h1]
    simp only [iff_iff_implies_and_implies]
    constructor
    · intro hc; exact absurd hc (by simp)
    · rintro ⟨hmem, -⟩
      exact absurd (List.elem_iff.mpr hmem) h1

theorem rowCandidateTimed_map_minutes (ts : List (String × String))
    (ids pats svcs : List String) (cur : Int) (st : StopTime) :
    (rowCandidateTimed ts ids pats svcs cur st).map Departure.minutes =
      rowCandidate ts ids pats svcs cur st := by
  unfold rowCandidateTimed rowCandidate
  by_cases h1 : ids.contains st.stop_id <;> simp only [h1, if_true, if_false]
  · by_cases h2 : headsignMatches pats st.headsign <;> simp only [h2, if_true, if_false]
    · by_cases h3 : serviceActive (lookup ts st.trip_id) svcs <;>
        simp only [h3, if_true, if_false]
      · cases hp : parse_time st.departure_time with
        | none => rfl
        | some dep =>
          by_cases h4 : dep < cur <;> simp [h4]
      · rfl
    · rfl
  · rfl

theorem rowCandidate_none_of_parse_none {ts : List (String × String)}
    {ids pats svcs : List String} {cur : Int} {st : StopTime}
    (h : parse_time st.departure_time = none) :
    rowCandidate ts ids pats svcs cur st = none ∧
      rowCandidateTimed ts ids pats svcs cur st = none := by
  unfold rowCandidate rowCandidateTimed
  rw [h]
  constructor <;> (split <;> try rfl) <;> (split <;> try rfl) <;> (split <;> rfl)

theorem rowCandidate_none_of_no_service {ts : List (String × String)}
    {ids pats svcs : List String} {cur : Int} {st : StopTime}
    (h : lookup ts st.trip_id = none) :
    rowCandidate ts ids pats svcs cur st = none ∧
      rowCandidateTimed ts ids pats svcs cur st = none := by
  unfold rowCandidate rowCandidateTimed
  rw [h]
  constructor <;> (split <;> try rfl) <;> (split <;> rfl)

/-! Sortedness and stability of the final sort-and-truncate stage. -/

theorem insertionSort_dep_sorted (cands : List Departure) :
    List.Pairwise depLE (List.insertionSort depLE cands) := by
  haveI : IsTotal Departure depLE := ⟨fun a b => Int.le_total a.minutes b.minutes⟩
  haveI : IsTrans Departure depLE := ⟨fun _ _ _ hab hbc => le_trans hab hbc⟩
  exact List.sorted_insertionSort depLE cands

theorem insertionSort_int_sorted (cands : List Int) :
    List.Pairwise intLE (List.insertionSort intLE cands) := by
  haveI : IsTotal Int intLE := ⟨fun a b => Int.le_total a b⟩
  haveI : IsTrans Int intLE := ⟨fun _ _ _ hab hbc => le_trans hab hbc⟩
  exact List.sorted_insertionSort intLE cands

theorem queryPipeline_sorted (cands : List Departure) (limit : Nat) :
    List.Pairwise depLE (queryPipeline cands limit) :=
  (insertionSort_dep_sorted cands).sublist
    (List.take_sublist limit (List.insertionSort depLE cands))

theorem insertionSort_dep_stable (cands : List Departure) (m : Int) :
    (List.insertionSort depLE cands).filter (fun d => decide (d.minutes = m)) =
      cands.filter (fun d => decide (d.minutes = m)) := by
  haveI : IsTotal Departure depLE := ⟨fun a b => Int.le_total a.minutes b.minutes⟩
  haveI : IsTrans Departure depLE := ⟨fun _ _ _ hab hbc => le_trans hab hbc⟩
  have hperm : List.insertionSort depLE cands ~ cands :=
    List.perm_insertionSort depLE cands
  have hpw : (cands.filter fun d => decide (d.minutes = m)).Pairwise depLE := by
    apply List.pairwise_of_forall_mem_list
    intro a ha b hb
    have ha1 := List.of_mem_filter ha
    have hb1 := List.of_mem_filter hb
    have ha2 : a.minutes = m := of_decide_eq_true ha1
    have hb2 : b.minutes = m := of_decide_eq_true hb1
    show a.minutes ≤ b.minutes
    omega
  have hsub : (cands.filter fun d => decide (d.minutes = m)) <+
      List.insertionSort depLE cands :=
    List.sublist_insertionSort hpw (List.filter_sublist cands)
  have hidem : ((cands.filter fun d => decide (d.minutes = m)).filter
      fun d => decide (d.minutes = m)) = cands.filter fun d => decide (d.minutes = m) := by
    apply List.filter_eq_self.mpr
    intro x hx
    have h1 := List.of_mem_filter hx
    exact h1
  have hsub2 : (cands.filter fun d => decide (d.minutes = m)) <+
      ((List.insertionSort depLE cands).filter fun d => decide (d.minutes = m)) := by
    rw [← hidem]
    exact hsub.filter _
  have hpermf : ((List.insertionSort depLE cands).filter fun d => decide (d.minutes = m)) ~
      (cands.filter fun d => decide (d.minutes = m)) := hperm.filter _
  exact (hsub2.eq_of_length hpermf.length_eq.symm).symm

/-- Dropping one list element that maps to nothing leaves the scan
unchanged. -/
theorem filterMap_middle_none {α β : Type} {f : α → Option β} {x : α}
    (h : f x = none) (pre post : List α) :
    (pre ++ x :: post).filterMap f = (pre ++ post).filterMap f := by
  simp [List.filterMap_append, List.filterMap_cons, h]

/-! Branch analysis of the two query functions. -/

theorem gnb_no_stop {cfg : Config} {store : Store} {loc dest : String}
    {now : Now} {limit : Nat} (h : lookup cfg.bus_stops loc = none) :
    get_next_buses cfg store loc dest now limit = [] ∧
      get_next_buses_with_times cfg store loc dest now limit = [] := by
  constructor <;> simp [get_next_buses, get_next_buses_with_times, h]

theorem gnb_no_pats {cfg : Config} {store : Store} {loc dest : String}
    {now : Now} {limit : Nat} (h : (lookup cfg.destinations dest).getD [] = []) :
    get_next_buses cfg store loc dest now limit = [] ∧
      get_next_buses_with_times cfg store loc dest now limit = [] := by
  cases hs : lookup cfg.bus_stops loc with
  | none => exact gnb_no_stop hs
  | some sc => constructor <;> simp [get_next_buses, get_next_buses_with_times, hs, h]

theorem gnb_no_eff {cfg : Config} {store : Store} {loc dest : String}
    {now : Now} {limit : Nat}
    (h : (find_fallback_date now.date store.calendar_dates initFallbackInfo).1 = none) :
    get_next_buses cfg store loc dest now limit = [] ∧
      get_next_buses_with_times cfg store loc dest now limit = [] := by
  cases hs : lookup cfg.bus_stops loc with
  | none => exact gnb_no_stop hs
  | some sc =>
    by_cases hd : (lookup cfg.destinations dest).getD [] = []
    · exact gnb_no_pats hd
    · cases hl : (lookup cfg.destinations dest).getD [] with
      | nil => exact absurd hl hd
      | cons p ps =>
        constructor <;>
          simp [get_next_buses, get_next_buses_with_times, hs, hl, h]

theorem gnb_main {cfg : Config} {store : Store} {loc dest : String}
    {now : Now} {limit : Nat} {sc : BusStopConfig} {eff : String}
    (hs : lookup cfg.bus_stops loc = some sc)
    (heff : (find_fallback_date now.date store.calendar_dates initFallbackInfo).1 =
      some eff) :
    ((lookup cfg.destinations dest).getD [] = [] ∧
        get_next_buses cfg store loc dest now limit = [] ∧
        get_next_buses_with_times cfg store loc dest now limit = []) ∨
      ((lookup cfg.destinations dest).getD [] ≠ [] ∧
        get_next_buses cfg store loc dest now limit =
          (List.insertionSort intLE (store.stop_times.filterMap
            (rowCandidate store.trip_services sc.stop_ids
              ((lookup cfg.destinations dest).getD [])
              ((lookup store.calendar_dates eff).getD [])
              (currentSeconds now)))).take limit ∧
        get_next_buses_with_times cfg store loc dest now limit =
          queryPipeline (store.stop_times.filterMap
            (rowCandidateTimed store.trip_services sc.stop_ids
              ((lookup cfg.destinations dest).getD [])
              ((lookup store.calendar_dates eff).getD [])
              (currentSeconds now))) limit) := by
  cases hl : (lookup cfg.destinations dest).getD [] with
  | nil => exact Or.inl ⟨rfl, (gnb_no_pats hl).1, (gnb_no_pats hl).2⟩
  | cons p ps =>
    refine Or.inr ⟨by simp, ?_, ?_⟩ <;>
      simp [get_next_buses, get_next_buses_with_times, hs, hl, heff]

theorem rowCandidate_empty_ids {ts : List (String × String)}
    {pats svcs : List String} {cur : Int} {st : StopTime} :
    rowCandidate ts [] pats svcs cur st = none ∧
      rowCandidateTimed ts [] pats svcs cur st = none := by
  constructor <;> rfl

theorem serviceActive_empty (sid : Option String) : serviceActive sid [] = false := by
  cases sid <;> rfl

theorem rowCandidate_empty_svcs {ts : List (String × String)}
    {ids pats : List String} {cur : Int} {st : StopTime} :
    rowCandidate ts ids pats [] cur st = none ∧
      rowCandidateTimed ts ids pats [] cur st = none := by
  unfold rowCandidate rowCandidateTimed
  rw [serviceActive_empty]
  constructor <;> (split <;> try rfl) <;> (split <;> rfl)

theorem rowCandidate_some_nonneg {ts : List (String × String)}
    {ids pats svcs : List String} {cur : Int} {st : StopTime} {c : Int}
    (h : rowCandidate ts ids pats svcs cur st = some c) : 0 ≤ c := by
  obtain ⟨-, -, -, dep, -, hle, hc⟩ := rowCandidate_some_iff.mp h
  rw [hc, ← minutesUntil_eq_fdiv hle]
  exact minutesUntil_nonneg hle

theorem rowCandidateTimed_some_nonneg {ts : List (String × String)}
    {ids pats svcs : List String} {cur : Int} {st : StopTime} {d : Departure}
    (h : rowCandidateTimed ts ids pats svcs cur st = some d) : 0 ≤ d.minutes := by
  have hm := rowCandidateTimed_map_minutes ts ids pats svcs cur st
  rw [h] at hm
  exact rowCandidate_some_nonneg hm.symm

/-- A failed resolution when neither the date nor its weekday has calendar
data. -/
theorem ffd_none_of_no_weekday {cal : List (String × List String)} {t : String}
    (hl : lookup cal t = none)
    (hw : ∀ k ∈ cal.map Prod.fst, ∀ kd td : YMD, parseDate k = some kd →
      parseDate t = some td → weekday kd ≠ weekday td) (i : FallbackInfo) :
    (find_fallback_date t cal i).1 = none := by
  have hnone : (lookup cal t).isSome = false := by rw [hl]; rfl
  cases hp : parseDate t with
  | none => rw [ffd_badDate hnone hp i]
  | some td =>
    have hk : sameWeekdayKeys cal td = [] := by
      apply List.filter_eq_nil_iff.mpr
      intro k hk
      cases hpk : parseDate k with
      | none => simp
      | some kd =>
        simp only [hpk]
        exact beq_eq_false_iff_ne.mpr (hw k hk kd td hpk hp) ▸ (by simp [hw k hk kd td hpk hp])
    rw [ffd_noKeys hnone hp hk i]


/-! The calendar arithmetic behind `toOrdinal`: the numeric date order of
valid dates coincides with the day-count (chronological) order. -/

theorem daysInMonth_le31 (leap : Bool) (m : Nat) : daysInMonth leap m ≤ 31 := by
  unfold daysInMonth
  split <;> first | decide | (cases leap <;> decide)

theorem dbm_succ (leap : Bool) (m : Nat) (hm : 1 ≤ m) :
    daysBeforeMonth leap (m + 1) = daysBeforeMonth leap m + daysInMonth leap m := by
  cases m with
  | zero => exact absurd hm (by decide)
  | succ k => rfl

theorem dbm_mono (leap : Bool) : ∀ {m n : Nat}, 1 ≤ m → m ≤ n →
    daysBeforeMonth leap m ≤ daysBeforeMonth leap n := by
  intro m n hm hmn
  induction n with
  | zero => exact absurd (le_trans hm hmn) (by decide)
  | succ k ih =>
    rcases Nat.lt_or_ge m (k + 1) with h | h
    · have hk : 1 ≤ k := by omega
      have h2 := ih (by omega)
      rw [dbm_succ leap k hk]
      omega
    · have h2 : m = k + 1 := by omega
      rw [h2]

theorem ordinal_year_bound {leap : Bool} {m d : Nat} (hm1 : 1 ≤ m) (hm2 : m ≤ 12)
    (hd : d ≤ daysInMonth leap m) :
    daysBeforeMonth leap m + d ≤ 365 + (if leap then 1 else 0) := by
  have h13 : daysBeforeMonth leap 13 = 365 + (if leap then 1 else 0) := by
    cases leap <;> decide
  have h1 : daysBeforeMonth leap m + d ≤ daysBeforeMonth leap (m + 1) := by
    rw [dbm_succ leap m hm1]
    omega
  have h2 : daysBeforeMonth leap (m + 1) ≤ daysBeforeMonth leap 13 :=
    dbm_mono leap (by omega) (by omega)
  omega

theorem ordinal_month_lt {leap : Bool} {m1 d1 m2 d2 : Nat}
    (hm1 : 1 ≤ m1) (hm2 : m2 ≤ 12) (hmm : m1 < m2)
    (hd1 : d1 ≤ daysInMonth leap m1) (hd2 : 1 ≤ d2) :
    daysBeforeMonth leap m1 + d1 < daysBeforeMonth leap m2 + d2 := by
  have h1 : daysBeforeMonth leap m1 + d1 ≤ daysBeforeMonth leap (m1 + 1) := by
    rw [dbm_succ leap m1 hm1]
    omega
  have h2 : daysBeforeMonth leap (m1 + 1) ≤ daysBeforeMonth leap m2 :=
    dbm_mono leap (by omega) (by omega)
  omega

theorem dby_succ (k : Nat) :
    365 * (k + 1) + (k + 1) / 4 - (k + 1) / 100 + (k + 1) / 400 =
      (365 * k + k / 4 - k / 100 + k / 400) + 365 +
        (if isLeap (k + 1) then 1 else 0) := by
  have h4 := Nat.succ_div k 4
  have h100 := Nat.succ_div k 100
  have h400 := Nat.succ_div k 400
  have hiff : isLeap (k + 1) = true ↔
      ((k + 1) % 4 = 0 ∧ (k + 1) % 100 ≠ 0) ∨ (k + 1) % 400 = 0 := by
    simp only [isLeap, Bool.or_eq_true, Bool.and_eq_true, beq_iff_eq, bne_iff_ne,
      decide_eq_true_eq]
  by_cases d400 : 400 ∣ (k + 1)
  · have d100 : 100 ∣ (k + 1) := dvd_trans (by decide) d400
    have d4 : 4 ∣ (k + 1) := dvd_trans (by decide) d100
    have hLt : isLeap (k + 1) = true := hiff.mpr (by omega)
    rw [h4, h100, h400, if_pos d4, if_pos d100, if_pos d400, hLt, if_pos rfl]
    omega
  · by_cases d100 : 100 ∣ (k + 1)
    · have d4 : 4 ∣ (k + 1) := dvd_trans (by decide) d100
      have hLt : isLeap (k + 1) = false := by
        cases hc : isLeap (k + 1) with
        | false => rfl
        | true => exact absurd (hiff.mp hc) (by omega)
      rw [h4, h100, h400, if_pos d4, if_pos d100, if_neg d400, hLt, if_neg (by simp)]
      omega
    · by_cases d4 : 4 ∣ (k + 1)
      · have hLt : isLeap (k + 1) = true := hiff.mpr (by omega)
        rw [h4, h100, h400, if_pos d4, if_neg d100, if_neg d400, hLt, if_pos rfl]
        omega
      · have hLt : isLeap (k + 1) = false := by
          cases hc : isLeap (k + 1) with
          | false => rfl
          | true => exact absurd (hiff.mp hc) (by omega)
        rw [h4, h100, h400, if_neg d4, if_neg d100, if_neg d400, hLt, if_neg (by simp)]
        omega

theorem dby_mono {u v : Nat} (huv : u ≤ v) :
    365 * u + u / 4 - u / 100 + u / 400 ≤ 365 * v + v / 4 - v / 100 + v / 400 := by
  have h1 : u / 4 ≤ v / 4 := Nat.div_le_div_right huv
  have h2 : u / 400 ≤ v / 400 := Nat.div_le_div_right huv
  have h3 : v / 100 ≤ u / 100 + (v - u) := by omega
  have h4 : u / 100 ≤ u := Nat.div_le_self u 100
  obtain ⟨A, hA⟩ : ∃ A, u / 4 = A := ⟨_, rfl⟩
  obtain ⟨B, hB⟩ : ∃ B, u / 100 = B := ⟨_, rfl⟩
  obtain ⟨C, hC⟩ : ∃ C, u / 400 = C := ⟨_, rfl⟩
  obtain ⟨D, hD⟩ : ∃ D, v / 4 = D := ⟨_, rfl⟩
  obtain ⟨E, hE⟩ : ∃ E, v / 100 = E := ⟨_, rfl⟩
  obtain ⟨F, hF⟩ : ∃ F, v / 400 = F := ⟨_, rfl⟩
  rw [hA, hD] at h1
  rw [hC, hF] at h2
  rw [hE, hB] at h3
  rw [hB] at h4
  rw [hA, hB, hC, hD, hE, hF]
  omega

theorem toOrdinal_lt_of_dateNum_lt {xa xb : YMD}
    (ha1 : 1 ≤ xa.year) (ha2 : 1 ≤ xa.month) (ha3 : xa.month ≤ 12)
    (ha4 : 1 ≤ xa.day) (ha5 : xa.day ≤ daysInMonth (isLeap xa.year) xa.month)
    (hb1 : 1 ≤ xb.year) (hb2 : 1 ≤ xb.month) (hb3 : xb.month ≤ 12)
    (hb4 : 1 ≤ xb.day) (hb5 : xb.day ≤ daysInMonth (isLeap xb.year) xb.month)
    (h : dateNum xa < dateNum xb) : toOrdinal xa < toOrdinal xb := by
  have hda : xa.day ≤ 31 := le_trans ha5 (daysInMonth_le31 _ _)
  have hdb : xb.day ≤ 31 := le_trans hb5 (daysInMonth_le31 _ _)
  unfold dateNum at h
  have hcases : xa.year < xb.year ∨
      (xa.year = xb.year ∧ (xa.month < xb.month ∨
        (xa.month = xb.month ∧ xa.day < xb.day))) := by omega
  unfold toOrdinal
  rcases hcases with hy | ⟨hy, hm | ⟨hm, hd⟩⟩
  · -- earlier year: bound the date inside its own year, step to the next
    -- year boundary, then use monotonicity of the day count before a year
    have hyb : daysBeforeMonth (isLeap xa.year) xa.month + xa.day ≤
        365 + (if isLeap xa.year then 1 else 0) := ordinal_year_bound ha2 ha3 ha5
    have hstep := dby_succ (xa.year - 1)
    rw [show xa.year - 1 + 1 = xa.year by omega] at hstep
    have hmono : 365 * xa.year + xa.year / 4 - xa.year / 100 + xa.year / 400 ≤
        365 * (xb.year - 1) + (xb.year - 1) / 4 - (xb.year - 1) / 100 +
          (xb.year - 1) / 400 := dby_mono (by omega)
    obtain ⟨P, hP⟩ : ∃ P, 365 * (xa.year - 1) + (xa.year - 1) / 4 -
        (xa.year - 1) / 100 + (xa.year - 1) / 400 = P := ⟨_, rfl⟩
    obtain ⟨Q, hQ⟩ : ∃ Q, 365 * xa.year + xa.year / 4 - xa.year / 100 +
        xa.year / 400 = Q := ⟨_, rfl⟩
    obtain ⟨R, hR⟩ : ∃ R, 365 * (xb.year - 1) + (xb.year - 1) / 4 -
        (xb.year - 1) / 100 + (xb.year - 1) / 400 = R := ⟨_, rfl⟩
    rw [hP, hQ] at hstep
    rw [hQ, hR] at hmono
    rw [hP, hR]
    obtain ⟨L, hL⟩ : ∃ L, (if isLeap xa.year then 1 else 0) = L := ⟨_, rfl⟩
    rw [hL] at hyb hstep
    omega
  · rw [hy]
    have hlt := @ordinal_month_lt (isLeap xb.year) xa.month xa.day xb.month xb.day
      ha2 hb3 hm (hy ▸ ha5) hb4
    obtain ⟨Y, hY⟩ : ∃ Y, 365 * (xb.year - 1) + (xb.year - 1) / 4 -
        (xb.year - 1) / 100 + (xb.year - 1) / 400 = Y := ⟨_, rfl⟩
    rw [hY]
    omega
  · rw [hy, hm]
    obtain ⟨Y, hY⟩ : ∃ Y, 365 * (xb.year - 1) + (xb.year - 1) / 4 -
        (xb.year - 1) / 100 + (xb.year - 1) / 400 = Y := ⟨_, rfl⟩
    rw [hY]
    omega

theorem ymd_eq_of_dateNum_eq {xa xb : YMD} (hma : xa.month ≤ 12) (hmb : xb.month ≤ 12)
    (hda : xa.day ≤ 31) (hdb : xb.day ≤ 31) (h : dateNum xa = dateNum xb) : xa = xb := by
  obtain ⟨y1, m1, d1⟩ := xa
  obtain ⟨y2, m2, d2⟩ := xb
  simp only [dateNum] at h
  simp only at hma hmb hda hdb
  simp only [YMD.mk.injEq]
  refine ⟨?_, ?_, ?_⟩ <;> omega

/-- C1: a stop-time row contributes a candidate to the departure scan of
`get_next_buses` if and only if its stop id is in the stop group, its
headsign contains at least one destination pattern as a (case-sensitive)
substring, its trip's service — looked up through the trip-to-service
index — is among the active services, and its parsed departure offset is
at least the reference offset; the emitted minutes value is
`floor((departureOffset - referenceElapsed)/60)`.  The timed scan of
`get_next_buses_with_times` emits at exactly the same rows with the same
minutes values. -/
theorem C1_candidate_iff : ∀ (ts : List (String × String))
    (ids pats svcs : List String) (cur : Int) (st : StopTime),
    ((rowCandidateTimed ts ids pats svcs cur st).map Departure.minutes =
      rowCandidate ts ids pats svcs cur st) ∧
    ∀ c : Int, rowCandidate ts ids pats svcs cur st = some c ↔
      (st.stop_id ∈ ids ∧ (∃ p ∈ pats, p.data <:+: st.headsign.data) ∧
       (∃ sid, lookup ts st.trip_id = some sid ∧ sid ∈ svcs) ∧
       (∃ dep, parse_time st.departure_time = some dep ∧ cur ≤ dep ∧
         c = Int.fdiv (dep - cur) 60)) :=
  fun ts ids pats svcs cur st =>
    ⟨rowCandidateTimed_map_minutes ts ids pats svcs cur st,
     fun _ => rowCandidate_some_iff⟩

theorem C1_candidate_iff_witness :
    rowCandidate [("T1", "WKDY")] ["S1"] ["Downtown"] ["WKDY"] 25200
      ⟨"T1", "07:05:00", "S1", "Downtown Express"⟩ = some 5 :=
  ((C1_candidate_iff [("T1", "WKDY")] ["S1"] ["Downtown"] ["WKDY"] 25200
      ⟨"T1", "07:05:00", "S1", "Downtown Express"⟩).2 5).mpr
    ⟨by decide, ⟨"Downtown", by decide, by decide⟩, ⟨"WKDY", by decide, by decide⟩,
     25500, by decide, by decide, by decide⟩

/-- C2: calendar resolution returns the target date itself, with the
fallback flag clear, when the date is a calendar key; otherwise, when at
least one (parseable) calendar key shares the target's weekday, it
returns the greatest such key under Python string comparison — which is
also the chronologically latest same-weekday date, both in the numeric
`dateNum` order and in the day-count `toOrdinal` order — with the
fallback flag set; otherwise it yields no date. -/
theorem C2_resolution : ∀ (cal : List (String × List String)) (t : String)
    (i : FallbackInfo),
    ((lookup cal t).isSome = true →
      find_fallback_date t cal i = (some t, ⟨false, some t, none⟩)) ∧
    (∀ td : YMD, lookup cal t = none → parseDate t = some td →
      sameWeekdayKeys cal td ≠ [] →
      ∃ fb, find_fallback_date t cal i = (some fb, ⟨true, some t, some fb⟩) ∧
        fb ∈ sameWeekdayKeys cal td ∧
        (∀ k ∈ sameWeekdayKeys cal td, pyStrLt fb k = false) ∧
        (∀ k ∈ sameWeekdayKeys cal td, ∀ kd fbd : YMD, parseDate k = some kd →
          parseDate fb = some fbd →
          dateNum kd ≤ dateNum fbd ∧ toOrdinal kd ≤ toOrdinal fbd)) ∧
    (lookup cal t = none →
      (∀ td : YMD, parseDate t = some td → sameWeekdayKeys cal td = []) →
      (find_fallback_date t cal i).1 = none) := by
  intro cal t i
  refine ⟨fun h => ffd_found h i, ?_, ?_⟩
  · intro td hl hp hne
    have hnone : (lookup cal t).isSome = false := by rw [hl]; rfl
    cases hs : List.insertionSort pyStrGe (sameWeekdayKeys cal td) with
    | nil =>
      have hperm := List.perm_insertionSort pyStrGe (sameWeekdayKeys cal td)
      rw [hs] at hperm
      exact absurd (hperm.symm.eq_nil) hne
    | cons fb rest =>
      obtain ⟨hmem, hmax⟩ := sortDesc_head hs
      refine ⟨fb, ffd_fallback hnone hp hs i, hmem, fun k hk => hmax k hk, ?_⟩
      intro k hk kd fbd hkd hfbd
      have hdn : dateNum kd ≤ dateNum fbd := by
        have hge := hmax k hk
        have hiff := pyStrLt_iff_dateNum hfbd hkd
        by_contra hlt
        have hx : pyStrLt fb k = true := hiff.mpr (by omega)
        have hge2 : pyStrLt fb k = false := hge
        rw [hx] at hge2
        exact absurd hge2 (by simp)
      refine ⟨hdn, ?_⟩
      obtain ⟨-, -, -, hy1, hm1, hm2, hd1, hd2⟩ := parseDate_spec hkd
      obtain ⟨-, -, -, hy1b, hm1b, hm2b, hd1b, hd2b⟩ := parseDate_spec hfbd
      rcases Nat.lt_or_ge (dateNum kd) (dateNum fbd) with hlt | hge2
      · exact le_of_lt (toOrdinal_lt_of_dateNum_lt hy1 hm1 hm2 hd1 hd2
          hy1b hm1b hm2b hd1b hd2b hlt)
      · have heq : kd = fbd :=
          ymd_eq_of_dateNum_eq hm2 hm2b (le_trans hd2 (daysInMonth_le31 _ _))
            (le_trans hd2b (daysInMonth_le31 _ _)) (by omega)
        rw [heq]
  · intro hl hall
    have hnone : (lookup cal t).isSome = false := by rw [hl]; rfl
    cases hp : parseDate t with
    | none => rw [ffd_badDate hnone hp i]
    | some td => rw [ffd_noKeys hnone hp (hall td hp) i]

theorem C2_resolution_witness :
    ∃ fb, find_fallback_date "20240102" [("20231226", ["WKDY"])] initFallbackInfo =
        (some fb, ⟨true, some "20240102", some fb⟩) ∧
      fb ∈ sameWeekdayKeys [("20231226", ["WKDY"])] ⟨2024, 1, 2⟩ ∧
      (∀ k ∈ sameWeekdayKeys [("20231226", ["WKDY"])] ⟨2024, 1, 2⟩,
        pyStrLt fb k = false) ∧
      (∀ k ∈ sameWeekdayKeys [("20231226", ["WKDY"])] ⟨2024, 1, 2⟩,
        ∀ kd fbd : YMD, parseDate k = some kd → parseDate fb = some fbd →
          dateNum kd ≤ dateNum fbd ∧ toOrdinal kd ≤ toOrdinal fbd) :=
  (C2_resolution [("20231226", ["WKDY"])] "20240102" initFallbackInfo).2.1
    ⟨2024, 1, 2⟩ (by decide) (by decide) (by decide)

/-- C3 as stated fails on the code: with the initial (empty, unloaded)
cache, a readable one-row calendar table and an unreadable trips table,
the load fails — with a plain file error, not a dedicated load error
type, which the module never defines — and the cache is left partially
populated: the calendar table has been replaced while the others keep
their previous contents. -/
theorem C3_load_counterexample :
    (load_all_data initCache (some [⟨some "WKDY", some "20240101", none⟩])
        none none []).1 = Except.error (PyError.fileNotFound "trips.txt") ∧
      (load_all_data initCache (some [⟨some "WKDY", some "20240101", none⟩])
        none none []).2 ≠ initCache ∧
      (load_all_data initCache (some [⟨some "WKDY", some "20240101", none⟩])
        none none []).2.calendar_dates = some [("20240101", ["WKDY"])] :=
  ⟨rfl, by decide, by decide⟩

/-- C3 (amended): when a source table is unreadable or a required column
is missing, the load fails with the underlying error — a file error
naming the table file, or a key error naming the missing column; the
module defines no `DataLoadError` — and the store may be left partially
populated: the tables fully built before the failing one are replaced,
the later tables retain their previous contents, and the `loaded` flag
stays unset; only a fully successful load sets all three tables and the
flag. -/
theorem C3_load_paths : ∀ (c : Cache) (calSrc : Option (List CalSrcRow))
    (tripsSrc : Option (List TripSrcRow)) (stSrc : Option (List StopTimeSrcRow))
    (ids : List String), c.loaded = false →
    (calSrc = none → load_all_data c calSrc tripsSrc stSrc ids =
      (Except.error (PyError.fileNotFound "calendar_dates.txt"), c)) ∧
    (∀ rows e, calSrc = some rows → buildCalendar rows [] = .error e →
      load_all_data c calSrc tripsSrc stSrc ids = (Except.error e, c)) ∧
    (∀ rows cal, calSrc = some rows → buildCalendar rows [] = .ok cal →
      tripsSrc = none → load_all_data c calSrc tripsSrc stSrc ids =
        (Except.error (PyError.fileNotFound "trips.txt"),
         { c with calendar_dates := some cal })) ∧
    (∀ rows cal trows e, calSrc = some rows → buildCalendar rows [] = .ok cal →
      tripsSrc = some trows → buildTrips trows [] = .error e →
      load_all_data c calSrc tripsSrc stSrc ids =
        (Except.error e, { c with calendar_dates := some cal })) ∧
    (∀ rows cal trows trips, calSrc = some rows → buildCalendar rows [] = .ok cal →
      tripsSrc = some trows → buildTrips trows [] = .ok trips → stSrc = none →
      load_all_data c calSrc tripsSrc stSrc ids =
        (Except.error (PyError.fileNotFound "stop_times.txt"),
         { c with calendar_dates := some cal, trip_services := some trips })) ∧
    (∀ rows cal trows trips srows e, calSrc = some rows →
      buildCalendar rows [] = .ok cal → tripsSrc = some trows →
      buildTrips trows [] = .ok trips → stSrc = some srows →
      buildStopTimes ids srows = .error e →
      load_all_data c calSrc tripsSrc stSrc ids =
        (Except.error e, { c with calendar_dates := some cal, trip_services := some trips })) ∧
    (∀ rows cal trows trips srows sts, calSrc = some rows →
      buildCalendar rows [] = .ok cal → tripsSrc = some trows →
      buildTrips trows [] = .ok trips → stSrc = some srows →
      buildStopTimes ids srows = .ok sts →
      load_all_data c calSrc tripsSrc stSrc ids =
        (Except.ok (), ⟨some cal, some trips, some sts, true⟩)) := by
  intro c calSrc tripsSrc stSrc ids hl
  refine ⟨?_, ?_, ?_, ?_, ?_, ?_, ?_⟩
  · intro h
    simp [load_all_data, hl, h]
  · intro rows e h hb
    simp [load_all_data, hl, h, hb]
  · intro rows cal h hb ht
    simp [load_all_data, hl, h, hb, ht]
  · intro rows cal trows e h hb ht htb
    simp [load_all_data, hl, h, hb, ht, htb]
  · intro rows cal trows trips h hb ht htb hst
    simp [load_all_data, hl, h, hb, ht, htb, hst]
  · intro rows cal trows trips srows e h hb ht htb hst hsb
    simp [load_all_data, hl, h, hb, ht, htb, hst, hsb]
  · intro rows cal trows trips srows sts h hb ht htb hst hsb
    simp [load_all_data, hl, h, hb, ht, htb, hst, hsb]

theorem C3_load_paths_witness :
    load_all_data initCache (some []) none none [] =
      (Except.error (PyError.fileNotFound "trips.txt"),
        { initCache with calendar_dates := some [] }) :=
  (C3_load_paths initCache (some []) none none [] rfl).2.2.1 [] [] rfl rfl rfl

/-- C4: both query functions are total (the embedding returns a value for
every input, modelling that no exception escapes), and every
empty-candidate condition yields the empty sequence: unknown stop key,
unknown or empty destination pattern set, no calendar data for the date
or its weekday, an effective date with no active service, an empty stop
group, and a scan in which no row matches. -/
theorem C4_empty_results : ∀ (cfg : Config) (store : Store) (loc dest : String)
    (now : Now) (limit : Nat),
    (lookup cfg.bus_stops loc = none →
      get_next_buses cfg store loc dest now limit = [] ∧
      get_next_buses_with_times cfg store loc dest now limit = []) ∧
    ((lookup cfg.destinations dest).getD [] = [] →
      get_next_buses cfg store loc dest now limit = [] ∧
      get_next_buses_with_times cfg store loc dest now limit = []) ∧
    (lookup store.calendar_dates now.date = none →
      (∀ k ∈ store.calendar_dates.map Prod.fst, ∀ kd td : YMD,
        parseDate k = some kd → parseDate now.date = some td →
        weekday kd ≠ weekday td) →
      get_next_buses cfg store loc dest now limit = [] ∧
      get_next_buses_with_times cfg store loc dest now limit = []) ∧
    (∀ eff, (find_fallback_date now.date store.calendar_dates initFallbackInfo).1 =
        some eff → (lookup store.calendar_dates eff).getD [] = [] →
      get_next_buses cfg store loc dest now limit = [] ∧
      get_next_buses_with_times cfg store loc dest now limit = []) ∧
    (∀ sc, lookup cfg.bus_stops loc = some sc → sc.stop_ids = [] →
      get_next_buses cfg store loc dest now limit = [] ∧
      get_next_buses_with_times cfg store loc dest now limit = []) ∧
    (∀ sc eff, lookup cfg.bus_stops loc = some sc →
      (find_fallback_date now.date store.calendar_dates initFallbackInfo).1 = some eff →
      (∀ st ∈ store.stop_times, rowCandidate store.trip_services sc.stop_ids
        ((lookup cfg.destinations dest).getD [])
        ((lookup store.calendar_dates eff).getD []) (currentSeconds now) st = none) →
      get_next_buses cfg store loc dest now limit = [] ∧
      get_next_buses_with_times cfg store loc dest now limit = []) := by
  intro cfg store loc dest now limit
  refine ⟨fun h => gnb_no_stop h, fun h => gnb_no_pats h, ?_, ?_, ?_, ?_⟩
  · intro hl hw
    exact gnb_no_eff (ffd_none_of_no_weekday hl hw initFallbackInfo)
  · intro eff heff hsvc
    cases hs : lookup cfg.bus_stops loc with
    | none => exact gnb_no_stop hs
    | some sc =>
      rcases @gnb_main cfg store loc dest now limit sc eff hs heff with
        ⟨-, h1, h2⟩ | ⟨-, h1, h2⟩
      · exact ⟨h1, h2⟩
      · rw [h1, h2, hsvc]
        have e1 : store.stop_times.filterMap
            (rowCandidate store.trip_services sc.stop_ids
              ((lookup cfg.destinations dest).getD []) [] (currentSeconds now)) = [] :=
          List.filterMap_eq_nil_iff.mpr fun st _ => (rowCandidate_empty_svcs).1
        have e2 : store.stop_times.filterMap
            (rowCandidateTimed store.trip_services sc.stop_ids
              ((lookup cfg.destinations dest).getD []) [] (currentSeconds now)) = [] :=
          List.filterMap_eq_nil_iff.mpr fun st _ => (rowCandidate_empty_svcs).2
        rw [e1, e2]
        exact ⟨List.take_nil, List.take_nil⟩
  · intro sc hs hids
    cases heff : (find_fallback_date now.date store.calendar_dates initFallbackInfo).1 with
    | none => exact gnb_no_eff heff
    | some eff =>
      rcases @gnb_main cfg store loc dest now limit sc eff hs heff with
        ⟨-, h1, h2⟩ | ⟨-, h1, h2⟩
      · exact ⟨h1, h2⟩
      · rw [h1, h2, hids]
        have e1 : store.stop_times.filterMap
            (rowCandidate store.trip_services []
              ((lookup cfg.destinations dest).getD [])
              ((lookup store.calendar_dates eff).getD []) (currentSeconds now)) = [] :=
          List.filterMap_eq_nil_iff.mpr fun st _ => (rowCandidate_empty_ids).1
        have e2 : store.stop_times.filterMap
            (rowCandidateTimed store.trip_services []
              ((lookup cfg.destinations dest).getD [])
              ((lookup store.calendar_dates eff).getD []) (currentSeconds now)) = [] :=
          List.filterMap_eq_nil_iff.mpr fun st _ => (rowCandidate_empty_ids).2
        rw [e1, e2]
        exact ⟨List.take_nil, List.take_nil⟩
  · intro sc eff hs heff hrows
    rcases @gnb_main cfg store loc dest now limit sc eff hs heff with
      ⟨-, h1, h2⟩ | ⟨-, h1, h2⟩
    · exact ⟨h1, h2⟩
    · rw [h1, h2]
      have e1 : store.stop_times.filterMap
          (rowCandidate store.trip_services sc.stop_ids
            ((lookup cfg.destinations dest).getD [])
            ((lookup store.calendar_dates eff).getD []) (currentSeconds now)) = [] :=
        List.filterMap_eq_nil_iff.mpr hrows
      have e2 : store.stop_times.filterMap
          (rowCandidateTimed store.trip_services sc.stop_ids
            ((lookup cfg.destinations dest).getD [])
            ((lookup store.calendar_dates eff).getD []) (currentSeconds now)) = [] := by
        apply List.filterMap_eq_nil_iff.mpr
        intro st hst
        have hm := rowCandidateTimed_map_minutes store.trip_services sc.stop_ids
          ((lookup cfg.destinations dest).getD [])
          ((lookup store.calendar_dates eff).getD []) (currentSeconds now) st
        rw [hrows st hst] at hm
        cases hcase : rowCandidateTimed store.trip_services sc.stop_ids
            ((lookup cfg.destinations dest).getD [])
            ((lookup store.calendar_dates eff).getD []) (currentSeconds now) st with
        | none => rfl
        | some d => rw [hcase] at hm; exact absurd hm (by simp)
      rw [e1, e2]
      exact ⟨List.take_nil, List.take_nil⟩

theorem C4_empty_results_witness :
    get_next_buses ⟨[], []⟩ ⟨[], [], []⟩ "stop_a" "destination_1" ⟨"20240101", 7, 0, 0⟩ 3 = [] ∧
    get_next_buses_with_times ⟨[], []⟩ ⟨[], [], []⟩ "stop_a" "destination_1"
      ⟨"20240101", 7, 0, 0⟩ 3 = [] :=
  (C4_empty_results ⟨[], []⟩ ⟨[], [], []⟩ "stop_a" "destination_1"
    ⟨"20240101", 7, 0, 0⟩ 3).1 (by decide)

/-- C5: every returned sequence is sorted ascending by minutes (all
adjacent — indeed all — pairs), the sort is stable (for each minutes
value, the equal-minutes departures appear in exactly their candidate
order, which is the original stop-time row order), and the result is the
truncation of the sorted candidate list to the requested limit. -/
theorem C5_sorted_stable : (∀ (cands : List Departure) (limit : Nat),
      queryPipeline cands limit = (List.insertionSort depLE cands).take limit ∧
      List.Pairwise depLE (queryPipeline cands limit)) ∧
    (∀ (cands : List Departure) (m : Int),
      (List.insertionSort depLE cands).filter (fun d => decide (d.minutes = m)) =
        cands.filter (fun d => decide (d.minutes = m))) ∧
    (∀ (cfg : Config) (store : Store) (loc dest : String) (now : Now) (limit : Nat),
      List.Pairwise depLE (get_next_buses_with_times cfg store loc dest now limit) ∧
      List.Pairwise intLE (get_next_buses cfg store loc dest now limit)) := by
  refine ⟨fun cands limit => ⟨rfl, queryPipeline_sorted cands limit⟩,
    insertionSort_dep_stable, ?_⟩
  intro cfg store loc dest now limit
  cases hs : lookup cfg.bus_stops loc with
  | none =>
    rw [(gnb_no_stop hs).1, (gnb_no_stop hs).2]
    exact ⟨List.Pairwise.nil, List.Pairwise.nil⟩
  | some sc =>
    cases heff : (find_fallback_date now.date store.calendar_dates initFallbackInfo).1 with
    | none =>
      rw [(gnb_no_eff heff).1, (gnb_no_eff heff).2]
      exact ⟨List.Pairwise.nil, List.Pairwise.nil⟩
    | some eff =>
      rcases @gnb_main cfg store loc dest now limit sc eff hs heff with
        ⟨-, h1, h2⟩ | ⟨-, h1, h2⟩
      · rw [h1, h2]
        exact ⟨List.Pairwise.nil, List.Pairwise.nil⟩
      · rw [h1, h2]
        refine ⟨queryPipeline_sorted _ _, ?_⟩
        exact (insertionSort_int_sorted _).sublist (List.take_sublist _ _)

theorem C5_sorted_stable_witness :
    List.Pairwise depLE (queryPipeline [⟨5, "07:05"⟩, ⟨3, "07:03"⟩] 3) :=
  ((C5_sorted_stable.1 [⟨5, "07:05"⟩, ⟨3, "07:03"⟩] 3).2)

/-- C6: every returned sequence has length at most the requested limit,
and every minutes value in it is non-negative. -/
theorem C6_bound_nonneg : ∀ (cfg : Config) (store : Store) (loc dest : String)
    (now : Now) (limit : Nat),
    (get_next_buses cfg store loc dest now limit).length ≤ limit ∧
    (∀ m ∈ get_next_buses cfg store loc dest now limit, 0 ≤ m) ∧
    (get_next_buses_with_times cfg store loc dest now limit).length ≤ limit ∧
    (∀ d ∈ get_next_buses_with_times cfg store loc dest now limit, 0 ≤ d.minutes) := by
  intro cfg store loc dest now limit
  cases hs : lookup cfg.bus_stops loc with
  | none =>
    rw [(gnb_no_stop hs).1, (gnb_no_stop hs).2]
    exact ⟨by simp, by simp, by simp, by simp⟩
  | some sc =>
    cases heff : (find_fallback_date now.date store.calendar_dates initFallbackInfo).1 with
    | none =>
      rw [(gnb_no_eff heff).1, (gnb_no_eff heff).2]
      exact ⟨by simp, by simp, by simp, by simp⟩
    | some eff =>
      rcases @gnb_main cfg store loc dest now limit sc eff hs heff with
        ⟨-, h1, h2⟩ | ⟨-, h1, h2⟩
      · rw [h1, h2]
        exact ⟨by simp, by simp, by simp, by simp⟩
      · rw [h1, h2]
        refine ⟨List.length_take_le _ _, ?_, List.length_take_le _ _, ?_⟩
        · intro m hm
          have hm2 := (List.take_sublist _ _).subset hm
          have hm3 := (List.perm_insertionSort intLE _).subset hm2
          obtain ⟨st, -, hst⟩ := List.mem_filterMap.mp hm3
          exact rowCandidate_some_nonneg hst
        · intro d hd
          have hd2 := (List.take_sublist _ _).subset hd
          have hd3 := (List.perm_insertionSort depLE _).subset hd2
          obtain ⟨st, -, hst⟩ := List.mem_filterMap.mp hd3
          exact rowCandidateTimed_some_nonneg hst

theorem C6_bound_nonneg_witness :
    (get_next_buses ⟨[("stop_a", ⟨"A", ["S1"]⟩)], [("destination_1", ["Downtown"])]⟩
        ⟨[("20240101", ["WKDY"])], [("T1", "WKDY")],
         [⟨"T1", "07:05:00", "S1", "Downtown Express"⟩]⟩
        "stop_a" "destination_1" ⟨"20240101", 7, 0, 0⟩ 3).length ≤ 3 ∧
      0 ≤ (5 : Int) :=
  ⟨(C6_bound_nonneg ⟨[("stop_a", ⟨"A", ["S1"]⟩)], [("destination_1", ["Downtown"])]⟩
      ⟨[("20240101", ["WKDY"])], [("T1", "WKDY")],
       [⟨"T1", "07:05:00", "S1", "Downtown Express"⟩]⟩
      "stop_a" "destination_1" ⟨"20240101", 7, 0, 0⟩ 3).1,
   (C6_bound_nonneg ⟨[("stop_a", ⟨"A", ["S1"]⟩)], [("destination_1", ["Downtown"])]⟩
      ⟨[("20240101", ["WKDY"])], [("T1", "WKDY")],
       [⟨"T1", "07:05:00", "S1", "Downtown Express"⟩]⟩
      "stop_a" "destination_1" ⟨"20240101", 7, 0, 0⟩ 3).2.1 5 (by decide)⟩

/-- C7: departure strings with hours ≥ 24 parse as valid offsets
("25:10:00" is 90600 seconds); a past-midnight departure never sorts
before any same-day departure at or after the reference time, because
minutes-until is monotone in the full offset; and in the concrete
midnight-wrap scenario the row "25:10:00" queried at 00:00:00 of the
same service day yields minutes 1510 and displayed time "01:10". -/
theorem C7_midnight_wrap :
    parse_time "25:10:00" = some 90600 ∧
    (∀ cur d1 d2 : Int, cur ≤ d1 → d1 < 86400 → 86400 ≤ d2 →
      minutesUntil d1 cur ≤ minutesUntil d2 cur) ∧
    get_next_buses_with_times
      ⟨[("stop_a", ⟨"A", ["S1"]⟩)], [("destination_1", ["Downtown"])]⟩
      ⟨[("20240101", ["WKDY"])], [("T1", "WKDY")],
       [⟨"T1", "25:10:00", "S1", "Downtown Express"⟩]⟩
      "stop_a" "destination_1" ⟨"20240101", 0, 0, 0⟩ 3 = [⟨1510, "01:10"⟩] := by
  refine ⟨by decide, ?_, by decide⟩
  intro cur d1 d2 h1 h2 h3
  unfold minutesUntil
  rw [Int.tdiv_eq_ediv (by omega) (by decide), Int.tdiv_eq_ediv (by omega) (by decide)]
  exact Int.ediv_le_ediv (by decide) (by omega)

theorem C7_midnight_wrap_witness :
    parse_time "25:10:00" = some 90600 ∧ minutesUntil 86000 0 ≤ minutesUntil 90600 0 :=
  ⟨C7_midnight_wrap.1,
   C7_midnight_wrap.2.1 0 86000 90600 (by decide) (by decide) (by decide)⟩

/-- C8: a stop-time row whose departure-time string fails to parse is
skipped: it emits no candidate in either scan, and removing it from the
store leaves both query results unchanged (and the queries, being total
functions, never fail because of it). -/
theorem C8_malformed_row : ∀ (cfg : Config)
    (cal : List (String × List String)) (ts : List (String × String))
    (pre post : List StopTime) (row : StopTime) (loc dest : String)
    (now : Now) (limit : Nat),
    parse_time row.departure_time = none →
    (∀ (trip_services : List (String × String)) (ids pats svcs : List String)
      (cur : Int), rowCandidate trip_services ids pats svcs cur row = none ∧
        rowCandidateTimed trip_services ids pats svcs cur row = none) ∧
    get_next_buses cfg ⟨cal, ts, pre ++ row :: post⟩ loc dest now limit =
      get_next_buses cfg ⟨cal, ts, pre ++ post⟩ loc dest now limit ∧
    get_next_buses_with_times cfg ⟨cal, ts, pre ++ row :: post⟩ loc dest now limit =
      get_next_buses_with_times cfg ⟨cal, ts, pre ++ post⟩ loc dest now limit := by
  intro cfg cal ts pre post row loc dest now limit h
  refine ⟨fun trip_services ids pats svcs cur => rowCandidate_none_of_parse_none h, ?_⟩
  cases hs : lookup cfg.bus_stops loc with
  | none => exact ⟨((gnb_no_stop hs).1).trans ((gnb_no_stop hs).1).symm,
      ((gnb_no_stop hs).2).trans ((gnb_no_stop hs).2).symm⟩
  | some sc =>
    cases heff : (find_fallback_date now.date cal initFallbackInfo).1 with
    | none =>
      have e1 := @gnb_no_eff cfg ⟨cal, ts, pre ++ row :: post⟩ loc dest now limit heff
      have e2 := @gnb_no_eff cfg ⟨cal, ts, pre ++ post⟩ loc dest now limit heff
      exact ⟨e1.1.trans e2.1.symm, e1.2.trans e2.2.symm⟩
    | some eff =>
      rcases @gnb_main cfg ⟨cal, ts, pre ++ row :: post⟩ loc dest now limit sc eff
          hs heff with ⟨hd, h1, h2⟩ | ⟨hd, h1, h2⟩ <;>
        rcases @gnb_main cfg ⟨cal, ts, pre ++ post⟩ loc dest now limit sc eff
            hs heff with ⟨hd2, h3, h4⟩ | ⟨hd2, h3, h4⟩
      · exact ⟨h1.trans h3.symm, h2.trans h4.symm⟩
      · exact absurd hd hd2.elim
      · exact absurd hd2 hd.elim
      · rw [h1, h2, h3, h4]
        constructor
        · show (List.insertionSort intLE ((pre ++ row :: post).filterMap _)).take limit = _
          rw [filterMap_middle_none (rowCandidate_none_of_parse_none h).1]
        · show queryPipeline ((pre ++ row :: post).filterMap _) limit = _
          rw [filterMap_middle_none (rowCandidate_none_of_parse_none h).2]

theorem C8_malformed_row_witness :
    get_next_buses ⟨[("stop_a", ⟨"A", ["S1"]⟩)], [("destination_1", ["Downtown"])]⟩
        ⟨[("20240101", ["WKDY"])], [("T1", "WKDY")],
         [⟨"T1", "07:05:00", "S1", "Downtown Express"⟩,
          ⟨"T1", "bad-time", "S1", "Downtown Express"⟩]⟩
        "stop_a" "destination_1" ⟨"20240101", 7, 0, 0⟩ 3 =
      get_next_buses ⟨[("stop_a", ⟨"A", ["S1"]⟩)], [("destination_1", ["Downtown"])]⟩
        ⟨[("20240101", ["WKDY"])], [("T1", "WKDY")],
         [⟨"T1", "07:05:00", "S1", "Downtown Express"⟩]⟩
        "stop_a" "destination_1" ⟨"20240101", 7, 0, 0⟩ 3 :=
  (C8_malformed_row ⟨[("stop_a", ⟨"A", ["S1"]⟩)], [("destination_1", ["Downtown"])]⟩
    [("20240101", ["WKDY"])] [("T1", "WKDY")]
    [⟨"T1", "07:05:00", "S1", "Downtown Express"⟩] []
    ⟨"T1", "bad-time", "S1", "Downtown Express"⟩
    "stop_a" "destination_1" ⟨"20240101", 7, 0, 0⟩ 3 (by decide)).2.1

/-- C9: a stop-time row whose trip id has no entry in the trip-to-service
index never contributes a departure: for every pattern set, stop group,
active-service set and reference time it emits no candidate, and removing
it from the store leaves both query results unchanged. -/
theorem C9_unresolvable_trip : ∀ (cfg : Config)
    (cal : List (String × List String)) (ts : List (String × String))
    (pre post : List StopTime) (row : StopTime) (loc dest : String)
    (now : Now) (limit : Nat),
    lookup ts row.trip_id = none →
    (∀ (ids pats svcs : List String) (cur : Int),
      rowCandidate ts ids pats svcs cur row = none ∧
        rowCandidateTimed ts ids pats svcs cur row = none) ∧
    get_next_buses cfg ⟨cal, ts, pre ++ row :: post⟩ loc dest now limit =
      get_next_buses cfg ⟨cal, ts, pre ++ post⟩ loc dest now limit ∧
    get_next_buses_with_times cfg ⟨cal, ts, pre ++ row :: post⟩ loc dest now limit =
      get_next_buses_with_times cfg ⟨cal, ts, pre ++ post⟩ loc dest now limit := by
  intro cfg cal ts pre post row loc dest now limit h
  refine ⟨fun ids pats svcs cur => rowCandidate_none_of_no_service h, ?_⟩
  cases hs : lookup cfg.bus_stops loc with
  | none => exact ⟨((gnb_no_stop hs).1).trans ((gnb_no_stop hs).1).symm,
      ((gnb_no_stop hs).2).trans ((gnb_no_stop hs).2).symm⟩
  | some sc =>
    cases heff : (find_fallback_date now.date cal initFallbackInfo).1 with
    | none =>
      have e1 := @gnb_no_eff cfg ⟨cal, ts, pre ++ row :: post⟩ loc dest now limit heff
      have e2 := @gnb_no_eff cfg ⟨cal, ts, pre ++ post⟩ loc dest now limit heff
      exact ⟨e1.1.trans e2.1.symm, e1.2.trans e2.2.symm⟩
    | some eff =>
      rcases @gnb_main cfg ⟨cal, ts, pre ++ row :: post⟩ loc dest now limit sc eff
          hs heff with ⟨hd, h1, h2⟩ | ⟨hd, h1, h2⟩ <;>
        rcases @gnb_main cfg ⟨cal, ts, pre ++ post⟩ loc dest now limit sc eff
            hs heff with ⟨hd2, h3, h4⟩ | ⟨hd2, h3, h4⟩
      · exact ⟨h1.trans h3.symm, h2.trans h4.symm⟩
      · exact absurd hd hd2.elim
      · exact absurd hd2 hd.elim
      · rw [h1, h2, h3, h4]
        constructor
        · show (List.insertionSort intLE ((pre ++ row :: post).filterMap _)).take limit = _
          rw [filterMap_middle_none (rowCandidate_none_of_no_service h).1]
        · show queryPipeline ((pre ++ row :: post).filterMap _) limit = _
          rw [filterMap_middle_none (rowCandidate_none_of_no_service h).2]

theorem C9_unresolvable_trip_witness :
    get_next_buses ⟨[("stop_a", ⟨"A", ["S1"]⟩)], [("destination_1", ["Downtown"])]⟩
        ⟨[("20240101", ["WKDY"])], [("T1", "WKDY")],
         [⟨"T1", "07:05:00", "S1", "Downtown Express"⟩,
          ⟨"GHOST", "07:06:00", "S1", "Downtown Express"⟩]⟩
        "stop_a" "destination_1" ⟨"20240101", 7, 0, 0⟩ 3 =
      get_next_buses ⟨[("stop_a", ⟨"A", ["S1"]⟩)], [("destination_1", ["Downtown"])]⟩
        ⟨[("20240101", ["WKDY"])], [("T1", "WKDY")],
         [⟨"T1", "07:05:00", "S1", "Downtown Express"⟩]⟩
        "stop_a" "destination_1" ⟨"20240101", 7, 0, 0⟩ 3 :=
  (C9_unresolvable_trip ⟨[("stop_a", ⟨"A", ["S1"]⟩)], [("destination_1", ["Downtown"])]⟩
    [("20240101", ["WKDY"])] [("T1", "WKDY")]
    [⟨"T1", "07:05:00", "S1", "Downtown Express"⟩] []
    ⟨"GHOST", "07:06:00", "S1", "Downtown Express"⟩
    "stop_a" "destination_1" ⟨"20240101", 7, 0, 0⟩ 3 (by decide)).2.1

/-- C10: every resolution keeps the recorded fallback state consistent —
a resolution that finds the target date leaves the state at (false,
target, none), one that substitutes a same-weekday date leaves it at
(true, target, substitute), and a failed resolution leaves the state
untouched — so in every state reachable through resolutions the
`is_fallback` flag holds exactly when a fallback date is recorded; the
status-reporting operation is a total function (it never raises) that
passes the three recorded fields through unchanged. -/
theorem C10_fallback_state :
    (∀ (t : String) (cal : List (String × List String)) (i : FallbackInfo),
      (lookup cal t).isSome = true →
        (find_fallback_date t cal i).2 = ⟨false, some t, none⟩) ∧
    (∀ (t : String) (cal : List (String × List String)) (i : FallbackInfo)
      (s : String), (lookup cal t).isSome = false →
        (find_fallback_date t cal i).1 = some s →
        (find_fallback_date t cal i).2 = ⟨true, some t, some s⟩) ∧
    (∀ (t : String) (cal : List (String × List String)) (i : FallbackInfo),
      (find_fallback_date t cal i).1 = none → (find_fallback_date t cal i).2 = i) ∧
    (∀ i : FallbackInfo, ReachableInfo i →
      (i.is_fallback = true ↔ i.fallback_date.isSome = true)) ∧
    (∀ i : FallbackInfo, (get_fallback_info i).is_fallback = i.is_fallback ∧
      (get_fallback_info i).original_date = i.original_date ∧
      (get_fallback_info i).fallback_date = i.fallback_date) := by
  have hfound : ∀ (t : String) (cal : List (String × List String)) (i : FallbackInfo),
      (lookup cal t).isSome = true →
        (find_fallback_date t cal i).2 = ⟨false, some t, none⟩ :=
    fun t cal i h => by rw [ffd_found h i]
  have hsub : ∀ (t : String) (cal : List (String × List String)) (i : FallbackInfo)
      (s : String), (lookup cal t).isSome = false →
        (find_fallback_date t cal i).1 = some s →
        (find_fallback_date t cal i).2 = ⟨true, some t, some s⟩ := by
    intro t cal i s hk h1
    cases hp : parseDate t with
    | none => rw [ffd_badDate hk hp i] at h1; exact absurd h1 (by simp)
    | some td =>
      cases hs : List.insertionSort pyStrGe (sameWeekdayKeys cal td) with
      | nil =>
        have hk0 : sameWeekdayKeys cal td = [] := by
          have hperm := List.perm_insertionSort pyStrGe (sameWeekdayKeys cal td)
          rw [hs] at hperm
          exact hperm.symm.eq_nil
        rw [ffd_noKeys hk hp hk0 i] at h1
        exact absurd h1 (by simp)
      | cons fb rest =>
        rw [ffd_fallback hk hp hs i] at h1 ⊢
        injection h1 with h1
        rw [h1]
  have hnone : ∀ (t : String) (cal : List (String × List String)) (i : FallbackInfo),
      (find_fallback_date t cal i).1 = none → (find_fallback_date t cal i).2 = i := by
    intro t cal i h1
    cases hk : (lookup cal t).isSome with
    | true => rw [ffd_found hk i] at h1; exact absurd h1 (by simp)
    | false =>
      cases hp : parseDate t with
      | none => rw [ffd_badDate hk hp i]
      | some td =>
        cases hs : List.insertionSort pyStrGe (sameWeekdayKeys cal td) with
        | nil =>
          have hk0 : sameWeekdayKeys cal td = [] := by
            have hperm := List.perm_insertionSort pyStrGe (sameWeekdayKeys cal td)
            rw [hs] at hperm
            exact hperm.symm.eq_nil
          rw [ffd_noKeys hk hp hk0 i]
        | cons fb rest => rw [ffd_fallback hk hp hs i] at h1; exact absurd h1 (by simp)
  refine ⟨hfound, hsub, hnone, ?_, fun i => ⟨rfl, rfl, rfl⟩⟩
  intro i hi
  induction hi with
  | init => simp [initFallbackInfo]
  | step t cal j hj ih =>
    cases hk : (lookup cal t).isSome with
    | true => rw [hfound t cal j hk]; simp
    | false =>
      cases h1 : (find_fallback_date t cal j).1 with
      | none => rw [hnone t cal j h1]; exact ih
      | some s => rw [hsub t cal j s hk h1]; simp

theorem C10_fallback_state_witness :
    (initFallbackInfo.is_fallback = true ↔ initFallbackInfo.fallback_date.isSome = true) ∧
      (find_fallback_date "20240101" [("20240101", ["WKDY"])] initFallbackInfo).2 =
        ⟨false, some "20240101", none⟩ :=
  ⟨C10_fallback_state.2.2.2.1 initFallbackInfo ReachableInfo.init,
   C10_fallback_state.1 "20240101" [("20240101", ["WKDY"])] initFallbackInfo (by decide)⟩
